import Mathlib

/-!
Verification of the droid repository's core: the catalog/workflow reader
(src/droid/make.py) and the per-branch process supervisor inside the Flask
request handlers (src/droid/server.py).

External collaborators (markdown rendering, BeautifulSoup, urlparse, the
filesystem, the OS process table) are represented as explicit inputs:
a hyperlink carries the network-location component its target parses to,
the rendered document is a list of such hyperlinks, process liveness is a
polling function from pid to optional exit code, and spawn results are an
optional pid (absent on spawn error).
-/

namespace Droid

/-- A rendered hyperlink carrying an `href` attribute: `netloc` is the
network-location component `urlparse(href)` yields, `cls` the optional
`class` attribute. -/
structure Link where
  href : String
  netloc : String
  cls : Option String := none
deriving DecidableEq, Repr

/-- A parsed directive target: `ACTION` with invocation name and description,
or `VIEW` with name, description and declared relative paths. -/
inductive Target where
  | action (name descr : String)
  | view (name descr : String) (paths : List String)
deriving DecidableEq, Repr

/-! ### Python-level string primitives

Implemented over the character list so that concrete evaluation is
definitional (the core `String` loops do not reduce in the kernel). -/

/-- `s.startswith(p)`. -/
def strStartsWith (s p : String) : Bool := p.data.isPrefixOf s.data

/-- `s[n:]`. -/
def strDrop (s : String) (n : Nat) : String := ⟨s.data.drop n⟩

/-- The longest prefix of characters satisfying `p`. -/
def strTakeWhile (p : Char → Bool) (s : String) : String := ⟨s.data.takeWhile p⟩

/-- The remainder after `strTakeWhile`. -/
def strDropWhile (p : Char → Bool) (s : String) : String := ⟨s.data.dropWhile p⟩

/-- `s.strip()`: remove leading and trailing whitespace. -/
def strTrim (s : String) : String :=
  ⟨((s.data.dropWhile Char.isWhitespace).reverse.dropWhile Char.isWhitespace).reverse⟩

/-- Split a character list at every character satisfying `p`, keeping empty
segments (as Python `str.split(sep)` and Lean `String.split` do). -/
def splitAux (p : Char → Bool) : List Char → List Char → List String
  | [], acc => [⟨acc.reverse⟩]
  | c :: cs, acc =>
    if p c then ⟨acc.reverse⟩ :: splitAux p cs [] else splitAux p cs (c :: acc)

/-- Split a string at every character satisfying `p`. -/
def strSplit (p : Char → Bool) (s : String) : List String := splitAux p s.data []

/-- Python `line.split()`: whitespace tokens, empties dropped. -/
def strTokens (s : String) : List String :=
  (strSplit Char.isWhitespace s).filter (fun t => t ≠ "")

/-! ### make.py, `read_workflow` (lines 6-19) -/

/-- Strip the comment marker from one workflow line: two characters for the
`"# "` form (`line[2:]`), one otherwise (`line[1:]`). -/
def stripLine (l : String) : String :=
  if strStartsWith l "# " then strDrop l 2 else strDrop l 1

/-- First loop of `read_workflow`: advance the iterator past the first line
starting with `"### Workflow"`, returning the remaining lines, or `none`
when no such line exists. -/
def afterMarker : List String → Option (List String)
  | [] => none
  | l :: ls => if strStartsWith l "### Workflow" then some ls else afterMarker ls

/-- Second loop of `read_workflow`: accumulate stripped lines while they
start with `"#"`, breaking at the first line that does not. -/
def collectWorkflow : List String → List String
  | [] => []
  | l :: ls => if strStartsWith l "#" then stripLine l :: collectWorkflow ls else []

/-- `read_workflow(lines)`: the accumulated stripped lines after the marker,
joined; empty when the marker never occurs (the second loop then runs on an
exhausted iterator). -/
def read_workflow (lines : List String) : String :=
  String.join (collectWorkflow ((afterMarker lines).getD []))

/-- The spec's characterization of extraction: the maximal run of
consecutive comment-marker lines immediately following the first
workflow-marker line, each stripped of exactly its marker prefix,
concatenated. -/
def read_workflow_spec (lines : List String) : String :=
  match afterMarker lines with
  | none => ""
  | some ls => String.join ((ls.takeWhile (fun l => strStartsWith l "#")).map stripLine)

/-! ### make.py, `read_makefile` (lines 21-43) -/

/-- The `.PHONY` scan over the dry-run stdout lines (lines 24-26): each line
starting with `".PHONY: "` assigns `line.split()[1:]` to the `phony` key;
the key is absent (`none`) when no such line occurs. -/
def scanPhony (stdoutLines : List String) : Option (List String) :=
  stdoutLines.foldl
    (fun acc line =>
      if strStartsWith line ".PHONY: " then
        some ((strTokens line).drop 1)
      else acc)
    none

/-- Classification of one hyperlink (lines 32-41): a link whose target has a
blank network-location component is recorded in `targets` and then, via a
lookup of the absent-when-unset `phony` key (a `KeyError` when `none`),
rewritten as an action link (member of phony) or a view link (otherwise);
other links are untouched. Returns the rewritten link and the elements
appended to the `targets`, `actions` and `views` lists. -/
def processLink (branch : String) (phony : Option (List String)) (link : Link) :
    Except String (Link × List String × List String × List String) :=
  if strTrim link.netloc = "" then
    match phony with
    | none => .error "KeyError: phony"
    | some ps =>
      if ps.contains link.href then
        .ok ({ link with href := "?action=" ++ link.href, cls := some "btn btn-primary btn-sm" },
             [link.href], ["?action=" ++ link.href], [])
      else
        .ok ({ link with href := branch ++ "/views/" ++ link.href },
             [link.href], [], [branch ++ "/views/" ++ link.href])
  else
    .ok (link, [], [], [])

/-- The loop over `html.find_all('a')` restricted to links with an `href`
attribute, accumulating the rewritten links and the three lists in
encounter order. -/
def processLinks (branch : String) (phony : Option (List String)) :
    List Link → Except String (List Link × List String × List String × List String)
  | [] => .ok ([], [], [], [])
  | l :: ls =>
    match processLink branch phony l with
    | .error e => .error e
    | .ok (l1, t1, a1, v1) =>
      match processLinks branch phony ls with
      | .error e => .error e
      | .ok (ls1, ts, acts, vs) => .ok (l1 :: ls1, t1 ++ ts, a1 ++ acts, v1 ++ vs)

/-- The result of `read_makefile`: the dictionary it builds. -/
structure MakefileOut where
  targets : List String
  views : List String
  actions : List String
  phony : Option (List String)
  markdown : String
  htmlLinks : List Link
deriving DecidableEq, Repr

/-- `read_makefile(branch)` given its external inputs: the dry-run stdout
lines, the Makefile's lines, and the markdown-to-hyperlinks rendering
(markdown + BeautifulSoup, an external library) as a function. -/
def read_makefile (branch : String) (stdoutLines fileLines : List String)
    (render : String → List Link) : Except String MakefileOut :=
  let phony := scanPhony stdoutLines
  let md := read_workflow fileLines
  match processLinks branch phony (render md) with
  | .error e => .error e
  | .ok (ls, ts, acts, vs) => .ok ⟨ts, vs, acts, phony, md, ls⟩

/-! ### The Directive Parser, `read_block`. -/

/-- Match a `VIEW` header line of the form `# VIEW <name>[: <description>]`,
giving the name (the text after the marker up to the first colon) and the
description (the text after the colon), or `none` when the line does not
match. -/
def viewHeaderName (l : String) : Option (String × String) :=
  if strStartsWith l "# VIEW " then
    let rest := strDrop l 7
    let name := strTakeWhile (fun c => c ≠ ':') rest
    if name = "" then none
    else
      let after := strDropWhile (fun c => c ≠ ':') rest
      some (name, if strStartsWith after ": " then strDrop after 2 else strDrop after 1)
  else none

/-- Modelled from the spec: the Directive Parser's line scan. `read_block`
is called by src/tests/test_make.py but is absent from src/droid/make.py;
this follows §4.1 of the spec. An `ACTION` header takes the following
line's text up to its first colon as the name and its full header-suffix
text as the description; a `VIEW` header matching
`VIEW <name>[: <description>]` takes the following line's whitespace tokens
from the third onward as the declared paths; a header with no following
line is a fatal parse failure; a non-matching line is skipped without
consuming the next line. -/
def parseLines : List String → Except String (List Target)
  | [] => .ok []
  | [l] =>
    if strStartsWith l "# ACTION" then .error "ParseError: header with no following line"
    else
      match viewHeaderName l with
      | some _ => .error "ParseError: header with no following line"
      | none => .ok []
  | l :: c :: rest =>
    if strStartsWith l "# ACTION" then
      let suffix := if strStartsWith c "# " then strDrop c 2 else c
      match parseLines rest with
      | .error e => .error e
      | .ok ts => .ok (.action (strTakeWhile (fun ch => ch ≠ ':') suffix) suffix :: ts)
    else
      match viewHeaderName l with
      | some (n, d) =>
        match parseLines rest with
        | .error e => .error e
        | .ok ts => .ok (.view n d ((strTokens c).drop 2) :: ts)
      | none => parseLines (c :: rest)

/-- Modelled from the spec: `read_block` applied to a block of text splits
it into lines and runs the Directive Parser's scan. -/
def read_block (text : String) : Except String (List Target) :=
  parseLines (strSplit (fun c => c = Char.ofNat 10) text)

/-! ### server.py, the per-branch runtime state and supervisor
(`branch` route, lines 60-107, and `view` route, lines 110-118).

The `branches[branch]` dictionary starts as `{'name': x}`; every other key
is optional. Timestamps are rationals (fractional seconds), a pid stands
for a `Popen` handle, and `poll : Nat → Option Int` is the OS process
table: `none` while the pid is alive, the exit code once it has exited. -/

/-- The per-branch runtime dictionary `branches[branch]`. -/
structure BranchState where
  name : String
  action : Option String := none
  command : Option String := none
  process : Option Nat := none
  start_time : Option ℚ := none
  cancelled : Option Bool := none
  console : Option String := none
  run_time : Option ℤ := none
deriving DecidableEq, Repr

/-- The registry entry created at startup for a workspace subdirectory:
only the `name` key is set. -/
def initBranch (name : String) : BranchState := { name := name }

/-- Observable side effects of one request, in program order. -/
inductive Eff where
  | kill (pid : Nat)
  | spawnAttempt (command : String)
  | sleep (secs : Nat)
deriving DecidableEq, Repr

/-- Whether an effect is a process-launch attempt (`subprocess.Popen`). -/
def isSpawnAttempt : Eff → Bool
  | .spawnAttempt _ => true
  | _ => false

/-- `do == 'cancel'` handling (lines 67-72): when a process is recorded it
is killed, `cancelled` is set to `True`, and the caller sleeps one second;
otherwise nothing happens. -/
def cancelOp (st : BranchState) : BranchState × List Eff :=
  match st.process with
  | some pid => ({ st with cancelled := some true }, [.kill pid, .sleep 1])
  | none => (st, [])

/-- The launch of a matched action (lines 77-91): a recorded process that
is still alive (`poll() is None`) is killed first; `Popen` is then invoked
(`spawnRes` is its result, `none` on a spawn error, in which case the
exception propagates before `branches[branch].update`, leaving the
dictionary untouched); on success the five keys are updated and the caller
sleeps one second. -/
def startOp (poll : Nat → Option Int) (d : String) (spawnRes : Option Nat) (now : ℚ)
    (st : BranchState) : BranchState × List Eff :=
  let k : List Eff :=
    match st.process with
    | some pid => if poll pid = none then [.kill pid] else []
    | none => []
  match spawnRes with
  | none => (st, k ++ [.spawnAttempt ("make " ++ d)])
  | some pid =>
    ({ st with action := some d, command := some ("make " ++ d), process := some pid,
               start_time := some now, cancelled := some false },
     k ++ [.spawnAttempt ("make " ++ d), .sleep 1])

/-- How the action-dispatch block of the `branch` route ends when it does
not raise. -/
inductive DispatchResult where
  | redirect
  | fallthrough
deriving DecidableEq, Repr

/-- The Python iteration order of the dictionary `read_makefile` returns:
keys in insertion order — `targets`, `views`, `actions` created at
make.py line 22, `phony` added at line 26 only when a `.PHONY` line
occurred, `markdown` at line 28 and `html` at line 42. -/
def makefileKeys (m : MakefileOut) : List String :=
  "targets" :: "views" :: "actions" ::
    ((match m.phony with | some _ => ["phony"] | none => []) ++ ["markdown", "html"])

/-- The action-dispatch block (lines 65-92) as the program executes it:
`targets` is bound to the dictionary `read_makefile` returns (line 62).
No `action` query parameter falls through; `cancel` runs `cancelOp` and
redirects (lines 67-72, before the loop); any other name enters
`for target in targets` (line 74), which iterates the dictionary's string
keys, and the subscript `target['type']` (line 75) raises an uncaught
`TypeError` on the first key, so the launch body (lines 76-92, embedded
separately as `startOp`) is unreachable; a loop over an empty key list
would fall through to the status block. -/
def dispatch (makefile : MakefileOut) (doQ : Option String) (st : BranchState) :
    Except String (BranchState × List Eff × DispatchResult) :=
  match doQ with
  | none => .ok (st, [], .fallthrough)
  | some d =>
    if d = "cancel" then
      let (st1, effs) := cancelOp st
      .ok (st1, effs, .redirect)
    else
      match makefileKeys makefile with
      | [] => .ok (st, [], .fallthrough)
      | _ :: _ => .error "TypeError: string indices must be integers"

/-- The status view the rendered page exposes. -/
inductive Status where
  | idle
  | running (elapsedSeconds : ℤ)
  | exited (code : ℤ)
deriving DecidableEq, Repr

/-- The status block (lines 94-101): the console key is refreshed from the
capture file; with no recorded process the branch renders idle; a recorded
live process yields a running time of `math.ceil` of the elapsed seconds
since `start_time` (a `KeyError` if that key were absent); a recorded
exited process yields the exit code `poll()` returned, the handle staying
recorded. -/
def statusOp (poll : Nat → Option Int) (now : ℚ) (file : String) (st : BranchState) :
    Except String (BranchState × Status) :=
  let st1 := { st with console := some file }
  match st1.process with
  | none => .ok (st1, .idle)
  | some pid =>
    match poll pid with
    | some code => .ok (st1, .exited code)
    | none =>
      match st1.start_time with
      | none => .error "KeyError: start_time"
      | some t => .ok ({ st1 with run_time := some ⌈now - t⌉ }, .running ⌈now - t⌉)

/-- One supervisor operation on a branch, with its external inputs. -/
inductive Op where
  | cancel
  | start (d : String) (spawnRes : Option Nat) (now : ℚ)
  | status (now : ℚ) (file : String)
deriving DecidableEq, Repr

/-- Whether an operation is the cancel operation. -/
def isCancel : Op → Bool
  | .cancel => true
  | _ => false

/-- State transition of one operation (a status `KeyError` propagates after
the console key was refreshed). -/
def step (poll : Nat → Option Int) (st : BranchState) : Op → BranchState
  | .cancel => (cancelOp st).1
  | .start d sp now => (startOp poll d sp now st).1
  | .status now file =>
    match statusOp poll now file st with
    | .ok (s, _) => s
    | .error _ => { st with console := some file }

/-- Run a sequence of supervisor operations on a branch. -/
def runOps (poll : Nat → Option Int) (st : BranchState) (ops : List Op) : BranchState :=
  ops.foldl (step poll) st

/-- An HTTP-boundary response of the `view` route. -/
inductive HttpResp where
  | notFound
  | served (path : String)
  | serverError (msg : String)
deriving DecidableEq, Repr

/-- The `view` route (lines 110-118) as the program executes it:
`catalog b` is `none` when `make.read_makefile(b)` raises (no such branch
directory or Makefile), which propagates as an unhandled server error;
otherwise `targets` is the returned dictionary and the loop
`for target in targets` (line 113) iterates its string keys, so the
subscript `target['type']` (line 114) raises an uncaught `TypeError` on
the first key, before any path comparison — `send_file` (line 117) and
`abort(404)` (line 118) are unreachable; a loop over an empty key list
would reach the abort. -/
def viewRoute (catalog : String → Option MakefileOut) (branch : String)
    (_path : String) : HttpResp :=
  match catalog branch with
  | none => .serverError "FileNotFoundError"
  | some m =>
    match makefileKeys m with
    | [] => .notFound
    | _ :: _ => .serverError "TypeError: string indices must be integers"

/-! ### Helper lemmas -/

/-- The accumulation loop of `read_workflow` is the maximal run of
comment-marker lines, each stripped. -/
theorem collectWorkflow_eq (ls : List String) :
    collectWorkflow ls = (ls.takeWhile (fun l => strStartsWith l "#")).map stripLine := by
  induction ls with
  | nil => rfl
  | cons l ls ih =>
    by_cases h : strStartsWith l "#" = true <;>
      simp [collectWorkflow, List.takeWhile_cons, h, ih]

/-- When no line carries the workflow-start marker, the first loop exhausts
the iterator. -/
theorem afterMarker_eq_none (lines : List String)
    (h : ∀ l ∈ lines, strStartsWith l "### Workflow" = false) :
    afterMarker lines = none := by
  induction lines with
  | nil => rfl
  | cons l ls ih =>
    have hl := h l (List.mem_cons_self l ls)
    simp only [afterMarker, hl, Bool.false_eq_true, if_false]
    exact ih fun x hx => h x (List.mem_cons_of_mem l hx)

/-- When no dry-run line declares phony targets, the `phony` key is never
assigned. -/
theorem scanPhony_eq_none (stdoutLines : List String)
    (h : ∀ l ∈ stdoutLines, strStartsWith l ".PHONY: " = false) :
    scanPhony stdoutLines = none := by
  suffices general : ∀ (ls : List String) (acc : Option (List String)),
      (∀ l ∈ ls, strStartsWith l ".PHONY: " = false) →
      List.foldl
        (fun acc line =>
          if strStartsWith line ".PHONY: " then some ((strTokens line).drop 1) else acc)
        acc ls = acc by
    exact general stdoutLines none h
  intro ls
  induction ls with
  | nil => intro acc _; rfl
  | cons l tl ih =>
    intro acc hall
    have hl : strStartsWith l ".PHONY: " = false := hall l (by simp)
    simp only [List.foldl_cons, hl, Bool.false_eq_true, if_false]
    exact ih acc fun x hx => hall x (by simp [hx])

/-- With the `phony` key absent, link classification raises `KeyError`
exactly when some hyperlink's target has a blank network-location
component. -/
theorem processLinks_none_iff (branch : String) (links : List Link) :
    processLinks branch none links = .error "KeyError: phony" ↔
      ∃ l ∈ links, strTrim l.netloc = "" := by
  induction links with
  | nil => simp [processLinks]
  | cons l ls ih =>
    by_cases h : strTrim l.netloc = ""
    · simp [processLinks, processLink, h]
    · rcases hrec : processLinks branch none ls with e | r <;>
        simp [processLinks, processLink, h, hrec, ← ih]

/-- A successful status query never changes the recorded handle. -/
theorem statusOp_ok_process (poll : Nat → Option Int) (now : ℚ) (file : String)
    (st : BranchState) (r : BranchState × Status)
    (h : statusOp poll now file st = .ok r) : r.1.process = st.process := by
  unfold statusOp at h
  rcases hp : st.process with _ | pid <;> simp [hp] at h
  · subst h
    rfl
  · rcases hpoll : poll pid with _ | code <;> simp [hpoll] at h
    · rcases ht : st.start_time with _ | t <;> simp [ht] at h
      subst h
      rfl
    · subst h
      rfl

/-- No operation other than `cancel` can raise the cancelled flag. -/
theorem step_cancelled_false (poll : Nat → Option Int) (st : BranchState) (op : Op)
    (h : st.cancelled = some false) (hop : isCancel op = false) :
    (step poll st op).cancelled = some false := by
  cases op with
  | cancel => simp [isCancel] at hop
  | start d sp now =>
    cases sp <;> simp [step, startOp, h]
  | status now file =>
    rcases hs : statusOp poll now file st with e | r
    · simp [step, hs, h]
    · have : r.1.cancelled = st.cancelled := by
        unfold statusOp at hs
        rcases hp : st.process with _ | pid <;> simp [hp] at hs
        · subst hs
          rfl
        · rcases hpoll : poll pid with _ | code <;> simp [hpoll] at hs
          · rcases ht : st.start_time with _ | t <;> simp [ht] at hs
            subst hs
            rfl
          · subst hs
            rfl
      simp [step, hs, this, h]

/-- The cancelled flag stays cleared along any cancel-free operation
sequence. -/
theorem runOps_cancelled_false (poll : Nat → Option Int) (ops : List Op) :
    ∀ st : BranchState, st.cancelled = some false →
      (∀ op ∈ ops, isCancel op = false) →
      (runOps poll st ops).cancelled = some false := by
  induction ops with
  | nil => intro st h _; exact h
  | cons op tl ih =>
    intro st h hall
    have h1 := step_cancelled_false poll st op h (hall op (by simp))
    exact ih (step poll st op) h1 fun x hx => hall x (by simp [hx])

/-! ### Claims -/

/-- C1: after two consecutive successful starts on one branch exactly one
process is recorded, it is the one the second call launched, a first-call
process that is still alive is killed before the second launch, and a
branch state never records more than one process. -/
theorem claim_start_start_single_process (poll : Nat → Option Int) (st : BranchState)
    (d1 d2 : String) (p1 p2 : Nat) (t1 t2 : ℚ) :
    (startOp poll d2 (some p2) t2 ((startOp poll d1 (some p1) t1 st).1)).1.process = some p2 ∧
    (poll p1 = none →
      (startOp poll d2 (some p2) t2 ((startOp poll d1 (some p1) t1 st).1)).2 =
        [.kill p1, .spawnAttempt ("make " ++ d2), .sleep 1]) ∧
    (∀ s : BranchState, s.process.toList.length ≤ 1) := by
  refine ⟨rfl, fun halive => ?_, fun s => ?_⟩
  · simp [startOp, halive]
  · cases s.process <;> simp

/-- Witness for C1 at a concrete pair of starts. -/
theorem claim_start_start_single_process_witness :
    (startOp (fun _ => none) "b2" (some 2) 0
      ((startOp (fun _ => none) "b1" (some 1) 0 (initBranch "br")).1)).1.process = some 2 ∧
    (startOp (fun _ => none) "b2" (some 2) 0
      ((startOp (fun _ => none) "b1" (some 1) 0 (initBranch "br")).1)).2 =
      [.kill 1, .spawnAttempt "make b2", .sleep 1] :=
  ⟨(claim_start_start_single_process (fun _ => none) (initBranch "br") "b1" "b2" 1 2 0 0).1,
   (claim_start_start_single_process (fun _ => none) (initBranch "br") "b1" "b2" 1 2 0 0).2.1 rfl⟩

/-- C2: a local-target link in the phony set is rewritten to an
action-invocation href and appended only to the action list; a local-target
link outside the phony set is rewritten with the branch/views prefix and
appended only to the view list; a link with a network-location component is
left unmodified and appended to neither list. -/
theorem claim_link_classification (branch : String) (ps : List String) (link : Link) :
    (strTrim link.netloc = "" → link.href ∈ ps →
      processLink branch (some ps) link =
        .ok ({ link with href := "?action=" ++ link.href, cls := some "btn btn-primary btn-sm" },
             [link.href], ["?action=" ++ link.href], [])) ∧
    (strTrim link.netloc = "" → link.href ∉ ps →
      processLink branch (some ps) link =
        .ok ({ link with href := branch ++ "/views/" ++ link.href },
             [link.href], [], [branch ++ "/views/" ++ link.href])) ∧
    (strTrim link.netloc ≠ "" → processLink branch (some ps) link = .ok (link, [], [], [])) := by
  refine ⟨fun hloc hmem => ?_, fun hloc hmem => ?_, fun hloc => ?_⟩ <;>
    first
      | simp [processLink, hloc, hmem]
      | simp [processLink, hloc]

/-- Witness for C2: one link of each of the three kinds. -/
theorem claim_link_classification_witness :
    processLink "br" (some ["build"]) ⟨"build", "", none⟩ =
      .ok (⟨"?action=build", "", some "btn btn-primary btn-sm"⟩, ["build"], ["?action=build"], []) ∧
    processLink "br" (some ["build"]) ⟨"out.html", "", none⟩ =
      .ok (⟨"br/views/out.html", "", none⟩, ["out.html"], [], ["br/views/out.html"]) ∧
    processLink "br" (some ["build"]) ⟨"http://h/p", "h", none⟩ =
      .ok (⟨"http://h/p", "h", none⟩, [], [], []) :=
  ⟨(claim_link_classification "br" ["build"] ⟨"build", "", none⟩).1 rfl (by decide),
   (claim_link_classification "br" ["build"] ⟨"out.html", "", none⟩).2.1 rfl (by decide),
   (claim_link_classification "br" ["build"] ⟨"http://h/p", "h", none⟩).2.2 (by decide)⟩

/-- C3 (code bug): for every inbound action request naming anything other
than the reserved cancel value, the dispatch block raises an uncaught
`TypeError` while iterating the makefile dictionary's string keys, before
the requested name is compared with anything and before any launch: no
action request can ever validate against a catalog or start a process. -/
theorem claim_action_validation (makefile : MakefileOut) (st : BranchState) (d : String)
    (hd : d ≠ "cancel") :
    dispatch makefile (some d) st = .error "TypeError: string indices must be integers" := by
  simp [dispatch, hd, makefileKeys]

/-- Witness for C3: a concrete non-cancel action request against the
dictionary a makefile read returns. -/
theorem claim_action_validation_witness :
    dispatch ⟨["build"], [], ["?action=build"], some ["build"], "", []⟩ (some "build")
      (initBranch "br") = .error "TypeError: string indices must be integers" :=
  claim_action_validation ⟨["build"], [], ["?action=build"], some ["build"], "", []⟩
    (initBranch "br") "build" (by decide)

/-- C4: status on a branch with no recorded process is Idle and never
fails; with a recorded live process it is Running with the elapsed seconds
since the recorded start rounded up to the next whole second; with a
recorded exited process it reports the exit code, and neither a status
query nor a cancel clears the recorded handle. -/
theorem claim_status_reporting (poll : Nat → Option Int) (now : ℚ) (file : String)
    (st : BranchState) (pid : Nat) (code : Int) (t : ℚ) :
    (st.process = none →
      statusOp poll now file st = .ok ({ st with console := some file }, .idle)) ∧
    (st.process = some pid → poll pid = none → st.start_time = some t →
      statusOp poll now file st =
        .ok ({ st with console := some file, run_time := some ⌈now - t⌉ },
             .running ⌈now - t⌉)) ∧
    (st.process = some pid → poll pid = some code →
      statusOp poll now file st = .ok ({ st with console := some file }, .exited code)) ∧
    (∀ s r, statusOp poll now file s = .ok r → r.1.process = s.process) ∧
    (∀ s : BranchState, (cancelOp s).1.process = s.process) := by
  refine ⟨fun hp => ?_, fun hp hpoll ht => ?_, fun hp hpoll => ?_,
    fun s r h => statusOp_ok_process poll now file s r h, fun s => ?_⟩
  · simp [statusOp, hp]
  · simp [statusOp, hp, hpoll, ht]
  · simp [statusOp, hp, hpoll]
  · cases hq : s.process <;> simp [cancelOp, hq]

/-- Witness for C4: the three status shapes at concrete states. -/
theorem claim_status_reporting_witness :
    statusOp (fun _ => none) 0 "out" (initBranch "b") =
      .ok ({ initBranch "b" with console := some "out" }, .idle) ∧
    statusOp (fun _ => none) 2 "out" { initBranch "b" with process := some 5, start_time := some 0 } =
      .ok ({ initBranch "b" with process := some 5, start_time := some 0, console := some "out", run_time := some ⌈(2 : ℚ) - 0⌉ }, .running ⌈(2 : ℚ) - 0⌉) ∧
    statusOp (fun _ => some 4) 2 "out" { initBranch "b" with process := some 5, start_time := some 0 } =
      .ok ({ initBranch "b" with process := some 5, start_time := some 0, console := some "out" }, .exited 4) :=
  ⟨(claim_status_reporting (fun _ => none) 0 "out" (initBranch "b") 0 0 0).1 rfl,
   (claim_status_reporting (fun _ => none) 2 "out"
      { initBranch "b" with process := some 5, start_time := some 0 } 5 0 0).2.1 rfl rfl rfl,
   (claim_status_reporting (fun _ => some 4) 2 "out"
      { initBranch "b" with process := some 5, start_time := some 0 } 5 4 0).2.2.1 rfl rfl⟩

/-- C5 counterexample: a cancel followed by a start whose spawn fails
leaves the cancelled flag true after the start call, so the flag is not
cleared by every start. -/
theorem claim_cancel_flag_cex :
    (runOps (fun _ => some 0) { initBranch "b" with process := some 3 }
      [.cancel, .start "build" none 1]).cancelled = some true ∧
    (runOps (fun _ => some 0) { initBranch "b" with process := some 3 }
      [.cancel, .start "build" none 1]).cancelled ≠ some false :=
  ⟨rfl, by decide⟩

/-- C5 amended: cancel on a branch with a recorded process kills it, sets
the cancelled flag, and sleeps for the fixed interval before returning; the
flag is true only between a cancel and the next successful start, since
every successful start clears it to false and it then stays false along any
cancel-free operation sequence. -/
theorem claim_cancel_flag_amended (poll : Nat → Option Int) (st : BranchState) (pid : Nat)
    (h : st.process = some pid) :
    (cancelOp st).1.cancelled = some true ∧
    (cancelOp st).2 = [.kill pid, .sleep 1] ∧
    (∀ d p now s, (startOp poll d (some p) now s).1.cancelled = some false) ∧
    (∀ d p now s ops, (∀ op ∈ ops, isCancel op = false) →
      (runOps poll ((startOp poll d (some p) now s).1) ops).cancelled = some false) := by
  refine ⟨by simp [cancelOp, h], by simp [cancelOp, h], fun d p now s => by simp [startOp],
    fun d p now s ops hall => runOps_cancelled_false poll ops _ (by simp [startOp]) hall⟩

/-- Witness for the amended C5 at concrete states. -/
theorem claim_cancel_flag_amended_witness :
    (cancelOp { initBranch "b" with process := some 3 }).1.cancelled = some true ∧
    (cancelOp { initBranch "b" with process := some 3 }).2 = [.kill 3, .sleep 1] ∧
    (runOps (fun _ => none) ((startOp (fun _ => none) "a" (some 1) 0 (initBranch "c")).1)
      [.status 0 "f"]).cancelled = some false :=
  ⟨(claim_cancel_flag_amended (fun _ => none) { initBranch "b" with process := some 3 } 3 rfl).1,
   (claim_cancel_flag_amended (fun _ => none) { initBranch "b" with process := some 3 } 3 rfl).2.1,
   (claim_cancel_flag_amended (fun _ => none) { initBranch "b" with process := some 3 } 3 rfl).2.2.2
     "a" 1 0 (initBranch "c") [.status 0 "f"] (by decide)⟩

/-- C6 counterexample: a start whose spawn fails on a branch with a
recorded process leaves that handle recorded, so the handle does not become
absent. -/
theorem claim_spawn_failure_cex :
    (startOp (fun _ => some 0) "build" none 0
      { initBranch "b" with process := some 7 }).1.process = some 7 ∧
    (startOp (fun _ => some 0) "build" none 0
      { initBranch "b" with process := some 7 }).1.process ≠ none :=
  ⟨rfl, by decide⟩

/-- C6 amended: a start whose spawn fails leaves every field of the
branch's runtime state, the process handle included, unchanged (the
exception propagates before the state update), and exactly one launch is
attempted: no retry. -/
theorem claim_spawn_failure_amended (poll : Nat → Option Int) (d : String) (now : ℚ)
    (st : BranchState) :
    (startOp poll d none now st).1 = st ∧
    (startOp poll d none now st).2.countP isSpawnAttempt = 1 := by
  constructor
  · rfl
  · rcases hp : st.process with _ | pid
    · simp [startOp, hp, isSpawnAttempt]
    · by_cases halive : poll pid = none <;>
        simp [startOp, hp, halive, isSpawnAttempt]

/-- C7 counterexample: a request naming an unknown branch makes the
makefile read raise, an unhandled server error rather than a not-found
response. -/
theorem claim_unknown_branch_cex :
    viewRoute (fun _ => none) "ghost" "a.html" = .serverError "FileNotFoundError" ∧
    viewRoute (fun _ => none) "ghost" "a.html" ≠ .notFound :=
  ⟨rfl, by decide⟩

/-- C7 amended: a request naming an unknown branch yields an unhandled
missing-file server error at the boundary, not a not-found response; and
for a known branch every view-retrieval request yields an unhandled
`TypeError` from iterating the makefile dictionary's string keys before
any declared-path comparison, so no view request is answered not-found and
none is served. -/
theorem claim_view_boundary_amended (catalog : String → Option MakefileOut)
    (branch path : String) :
    (catalog branch = none → viewRoute catalog branch path = .serverError "FileNotFoundError") ∧
    (∀ m, catalog branch = some m →
      viewRoute catalog branch path = .serverError "TypeError: string indices must be integers" ∧
      viewRoute catalog branch path ≠ .notFound ∧
      ∀ p, viewRoute catalog branch path ≠ .served p) := by
  refine ⟨fun h => by simp [viewRoute, h], fun m h => ?_⟩
  have hty : viewRoute catalog branch path =
      .serverError "TypeError: string indices must be integers" := by
    simp [viewRoute, h, makefileKeys]
  exact ⟨hty, by simp [hty], fun p => by simp [hty]⟩

/-- Witness for the amended C7: a one-branch catalog hit by an unknown
branch and by a known branch. -/
theorem claim_view_boundary_amended_witness :
    viewRoute (fun b => if b = "br" then some ⟨[], [], [], none, "", []⟩ else none)
      "zz" "a.html" = .serverError "FileNotFoundError" ∧
    viewRoute (fun b => if b = "br" then some ⟨[], [], [], none, "", []⟩ else none)
      "br" "a.html" = .serverError "TypeError: string indices must be integers" ∧
    viewRoute (fun b => if b = "br" then some ⟨[], [], [], none, "", []⟩ else none)
      "br" "a.html" ≠ .notFound :=
  ⟨(claim_view_boundary_amended
      (fun b => if b = "br" then some ⟨[], [], [], none, "", []⟩ else none)
      "zz" "a.html").1 (by decide),
   ((claim_view_boundary_amended
      (fun b => if b = "br" then some ⟨[], [], [], none, "", []⟩ else none)
      "br" "a.html").2 ⟨[], [], [], none, "", []⟩ (by decide)).1,
   ((claim_view_boundary_amended
      (fun b => if b = "br" then some ⟨[], [], [], none, "", []⟩ else none)
      "br" "a.html").2 ⟨[], [], [], none, "", []⟩ (by decide)).2.1⟩

/-- C8: workflow extraction returns exactly the concatenation of the
maximal run of comment-marker lines immediately following the first
workflow-marker line, each stripped of exactly its marker prefix; and when
no line carries the marker the raw text is empty and the makefile read
yields empty target, action and view lists. -/
theorem claim_workflow_extraction (lines : List String) :
    read_workflow lines = read_workflow_spec lines ∧
    ((∀ l ∈ lines, strStartsWith l "### Workflow" = false) →
      read_workflow lines = "" ∧
      ∀ branch stdoutLines render, render "" = ([] : List Link) →
        read_makefile branch stdoutLines lines render =
          .ok ⟨[], [], [], scanPhony stdoutLines, "", []⟩) := by
  have hmain : read_workflow lines = read_workflow_spec lines := by
    unfold read_workflow read_workflow_spec
    rcases hm : afterMarker lines with _ | ls
    · rfl
    · simp [collectWorkflow_eq]
  refine ⟨hmain, fun hno => ?_⟩
  have hempty : read_workflow lines = "" := by
    unfold read_workflow
    rw [afterMarker_eq_none lines hno]
    rfl
  refine ⟨hempty, fun branch stdoutLines render hrender => ?_⟩
  simp only [read_makefile]
  rw [hempty, hrender]
  rfl

/-- Witness for C8 on marker-free input. -/
theorem claim_workflow_extraction_witness :
    read_workflow ["x", "# a"] = "" ∧
    read_makefile "br" [".PHONY: build"] ["x", "# a"] (fun _ => []) =
      .ok ⟨[], [], [], some ["build"], "", []⟩ :=
  ⟨((claim_workflow_extraction ["x", "# a"]).2 (by decide)).1,
   ((claim_workflow_extraction ["x", "# a"]).2 (by decide)).2 "br" [".PHONY: build"]
     (fun _ => []) rfl⟩

/-- C9: the Directive Parser on a VIEW header line followed by a
variable-assignment line yields exactly one View target with that name,
description and the declared paths in order. -/
theorem claim_view_directive_parse :
    read_block "# VIEW name: description\nFOO := file1.html path2/file2.xlsx" =
      .ok [.view "name" "description" ["file1.html", "path2/file2.xlsx"]] := rfl

/-- C10: when no dry-run line declares phony targets, the phony key is
never set, and the makefile read then raises the missing-key error exactly
when the workflow document contains a hyperlink whose target has a blank
network-location component. -/
theorem claim_missing_phony_keyerror (stdoutLines : List String) (branch : String)
    (links : List Link)
    (h : ∀ l ∈ stdoutLines, strStartsWith l ".PHONY: " = false) :
    scanPhony stdoutLines = none ∧
    ((∃ l ∈ links, strTrim l.netloc = "") ↔
      processLinks branch (scanPhony stdoutLines) links = .error "KeyError: phony") := by
  have hnone := scanPhony_eq_none stdoutLines h
  exact ⟨hnone, by rw [hnone]; exact (processLinks_none_iff branch links).symm⟩

/-- Witness for C10: phony-free dry-run output and a single local link. -/
theorem claim_missing_phony_keyerror_witness :
    scanPhony ["rule: dep"] = none ∧
    processLinks "br" (scanPhony ["rule: dep"]) [⟨"a", "", none⟩] =
      .error "KeyError: phony" :=
  ⟨(claim_missing_phony_keyerror ["rule: dep"] "br" [⟨"a", "", none⟩] (by decide)).1,
   (claim_missing_phony_keyerror ["rule: dep"] "br" [⟨"a", "", none⟩] (by decide)).2.mp
     ⟨⟨"a", "", none⟩, by decide, by decide⟩⟩

end Droid
